import Mathlib

/-!
Shallow embedding of the advent-podcast server (src/server.js).

Strings are modelled as lists of characters (`Str`).  JavaScript `Date`
values are modelled by `JDate`: either an invalid date (internal time NaN)
or a valid millisecond timestamp since the Unix epoch.  The host timezone
is modelled as a fixed offset `tz` in minutes, the value returned by
`getTimezoneOffset` (UTC minus local); daylight-saving transitions are
outside the model.  The directory listing, the parsed YAML metadata
document and the current time are inputs to the modelled request handlers,
mirroring the spec, which treats the filesystem, the YAML library and the
clock as external collaborators.
-/

abbrev Str := List Char

/-- A character between 0 and 9, as tested by the regular expressions in
`getEpisodeDetails`. -/
def isDigitCh (c : Char) : Bool := '0' ≤ c && c ≤ '9'

/-- Numeric value of a digit character. -/
def digitVal (c : Char) : Int := (c.toNat : Int) - (('0').toNat : Int)

/-- JavaScript `toLowerCase` restricted to the characters occurring in
filenames. -/
def toLowerStr (s : Str) : Str := s.map Char.toLower

/-- JavaScript `s.split('.').pop()`: the part after the last dot, or the
whole string when there is no dot. -/
def extOf (s : Str) : Str := ((s.reverse.takeWhile (fun c => c ≠ '.')).reverse)

/-- The `SUPPORTED_FORMATS` table of src/server.js: extension to MIME type. -/
def SUPPORTED_FORMATS : List (Str × Str) :=
  [("mp3".toList, "audio/mpeg".toList),
   ("m4a".toList, "audio/mp4".toList),
   ("opus".toList, "audio/opus".toList),
   ("ogg".toList, "audio/ogg".toList),
   ("mka".toList, "audio/x-matroska".toList)]

/-- `SUPPORTED_FORMATS.hasOwnProperty(ext)`. -/
def isSupportedExt (e : Str) : Bool := (SUPPORTED_FORMATS.lookup e).isSome

/-- Gregorian leap year rule, as implemented by the JavaScript Date type. -/
def isLeapYear (y : Int) : Bool :=
  (Int.emod y 4 == 0 && Int.emod y 100 != 0) || Int.emod y 400 == 0

/-- Number of days in a month of the proleptic Gregorian calendar. -/
def daysInMonth (y m : Int) : Int :=
  if m = 2 then (if isLeapYear y then 29 else 28)
  else if m = 4 ∨ m = 6 ∨ m = 9 ∨ m = 11 then 30 else 31

/-- Whether `y-m-d` denotes a real calendar date; `new Date("YYYY-MM-DD")`
yields an Invalid Date exactly when this fails. -/
def validCivil (y m d : Int) : Bool :=
  1 ≤ m && m ≤ 12 && 1 ≤ d && d ≤ daysInMonth y m

/-- Days from the Unix epoch (1970-01-01) to the civil date `y-m-d`,
following the standard civil-calendar conversion used by Date
implementations. -/
def daysFromCivil (y m d : Int) : Int :=
  let yy := if m ≤ 2 then y - 1 else y
  let era := Int.fdiv yy 400
  let yoe := yy - era * 400
  let mp := if m > 2 then m - 3 else m + 9
  let doy := Int.ediv (153 * mp + 2) 5 + d - 1
  let doe := yoe * 365 + Int.ediv yoe 4 - Int.ediv yoe 100 + doy
  era * 146097 + doe - 719468

/-- A JavaScript Date value: invalid (internal time NaN) or a millisecond
timestamp. -/
inductive JDate where
  | invalid
  | valid (ms : Int)
deriving DecidableEq, Repr

/-- JavaScript relational comparison `a <= b` on Date values: both operands
are converted to their numeric time value, and any comparison involving NaN
is false. -/
def JDate.le : JDate → JDate → Bool
  | .valid a, .valid b => a ≤ b
  | _, _ => false

/-- Two digit characters to a number. -/
def num2 (a b : Char) : Int := 10 * digitVal a + digitVal b

/-- `new Date(s)` for a ten-character `YYYY-MM-DD` string made of digits and
hyphens: UTC midnight of the denoted day when it is a real calendar date,
otherwise an Invalid Date. -/
def parseISODate (cs : Str) : JDate :=
  match cs with
  | [y1, y2, y3, y4, _, m1, m2, _, d1, d2] =>
    let y := 1000 * digitVal y1 + 100 * digitVal y2 + 10 * digitVal y3 + digitVal y4
    let m := num2 m1 m2
    let d := num2 d1 d2
    if validCivil y m d then .valid (daysFromCivil y m d * 86400000) else .invalid
  | _ => .invalid

/-- Whether a ten-character list matches the pattern of four digits, a
hyphen, two digits, a hyphen, two digits. -/
def dateTokenPattern : Str → Bool
  | [y1, y2, y3, y4, h1, m1, m2, h2, d1, d2] =>
    isDigitCh y1 && isDigitCh y2 && isDigitCh y3 && isDigitCh y4 &&
    h1 == '-' && isDigitCh m1 && isDigitCh m2 && h2 == '-' &&
    isDigitCh d1 && isDigitCh d2
  | _ => false

/-- The regular expression test of src/server.js line 83: does the filename
begin with a date-shaped token. -/
def hasDateToken (s : Str) : Bool := dateTokenPattern (s.take 10)

/-- `filename.match(...)` of src/server.js line 83: the captured date token,
when the filename starts with one. -/
def dateMatch (s : Str) : Option Str :=
  if hasDateToken s then some (s.take 10) else none

/-- `filename.replace` with the anchored date-underscore pattern
(src/server.js line 85): drop the leading eleven characters when the
filename starts with a date token followed by an underscore. -/
def dropDateToken (s : Str) : Str :=
  if hasDateToken s then
    match s.drop 10 with
    | '_' :: rest => rest
    | _ => s
  else s

/-- `replace` with the trailing literal mp3 pattern (src/server.js line 86):
drop a final ".mp3" when present.  No other supported extension is
stripped by the source. -/
def dropMp3Ext (s : Str) : Str :=
  if (".mp3".toList).isSuffixOf s then s.take (s.length - 4) else s

/-- Global replacement of underscores by spaces (src/server.js line 87). -/
def underscoresToSpaces (s : Str) : Str :=
  s.map (fun c => if c = '_' then ' ' else c)

/-- The `defaultTitle` computation of src/server.js lines 84 to 87. -/
def jsDefaultTitle (filename : Str) : Str :=
  underscoresToSpaces (dropMp3Ext (dropDateToken filename))

/-- The result of `parseDuration`: JavaScript null, NaN, a signed
infinity, or a number of seconds (the exact value, see `jsNumber`). -/
inductive JDur where
  | null
  | nan
  | inf (neg : Bool)
  | secs (q : ℚ)
deriving DecidableEq, Repr

/-- JavaScript `s.split(':')`. -/
def splitColon : Str → List Str
  | [] => [[]]
  | c :: rest =>
    let r := splitColon rest
    if c = ':' then [] :: r
    else
      match r with
      | h :: t => (c :: h) :: t
      | [] => [[c]]

/-- The whitespace characters stripped by the JavaScript Number coercion:
the WhiteSpace and LineTerminator sets of the language (tab, line feed,
vertical tab, form feed, carriage return, space, no-break space, ogham
space mark, the en-quad through hair-space range, line and paragraph
separators, narrow no-break space, medium mathematical space, ideographic
space, zero-width no-break space). -/
def isJsWhite (c : Char) : Bool :=
  c.toNat = 9 || c.toNat = 10 || c.toNat = 11 || c.toNat = 12 || c.toNat = 13
  || c.toNat = 32 || c.toNat = 160 || c.toNat = 5760
  || (8192 ≤ c.toNat && c.toNat ≤ 8202)
  || c.toNat = 8232 || c.toNat = 8233 || c.toNat = 8239 || c.toNat = 8287
  || c.toNat = 12288 || c.toNat = 65279

/-- Strip leading and trailing JavaScript whitespace. -/
def trimJs (s : Str) : Str :=
  ((s.dropWhile isJsWhite).reverse.dropWhile isJsWhite).reverse

/-- Value of a nonempty all-digit string, as a natural number. -/
def digitsNat (s : Str) : Option Nat :=
  if s ≠ [] ∧ s.all isDigitCh then
    some (s.foldl (fun acc c => 10 * acc + (c.toNat - ('0').toNat)) 0)
  else none

/-- Value of a digit string, the empty string counting as 0 (callers check
emptiness where the grammar requires digits). -/
def digitsValNat (s : Str) : Nat :=
  s.foldl (fun acc c => 10 * acc + (c.toNat - ('0').toNat)) 0

/-- Value of one digit in base `b` (2, 8 or 16), accepting both letter
cases. -/
def baseDigitVal (b : Nat) (c : Char) : Option Nat :=
  if '0' ≤ c ∧ c ≤ '9' then
    (if c.toNat - ('0').toNat < b then some (c.toNat - ('0').toNat) else none)
  else if 'a' ≤ c ∧ c ≤ 'f' then
    (if c.toNat - ('a').toNat + 10 < b then some (c.toNat - ('a').toNat + 10) else none)
  else if 'A' ≤ c ∧ c ≤ 'F' then
    (if c.toNat - ('A').toNat + 10 < b then some (c.toNat - ('A').toNat + 10) else none)
  else none

/-- Value of a nonempty digit run in base `b`. -/
def baseDigitsVal (b : Nat) (ds : Str) : Option Nat :=
  if ds = [] then none
  else
    ds.foldl (fun acc c =>
      match acc, baseDigitVal b c with
      | some a, some v => some (b * a + v)
      | _, _ => none) (some 0)

/-- Split a string at its first `e` or `E`, the exponent marker of a
decimal literal. -/
def splitOnExp : Str → Str × Option Str
  | [] => ([], none)
  | c :: rest =>
    if c = 'e' ∨ c = 'E' then ([], some rest)
    else
      let p := splitOnExp rest
      (c :: p.1, p.2)

/-- Exact value of a decimal mantissa: digits, digits-dot-digits,
digits-dot, or dot-digits; anything else is not a mantissa. -/
def decMantissa (mpart : Str) : Option ℚ :=
  let ip := mpart.takeWhile isDigitCh
  let rest := mpart.dropWhile isDigitCh
  match rest with
  | [] => if ip = [] then none else some ((digitsValNat ip : ℚ))
  | '.' :: frac =>
    if frac.all isDigitCh ∧ (ip ≠ [] ∨ frac ≠ []) then
      some ((digitsValNat ip : ℚ) + (digitsValNat frac : ℚ) / (10 : ℚ) ^ frac.length)
    else none
  | _ => none

/-- Value of an exponent part: optionally signed nonempty digit run. -/
def expVal (e : Str) : Option Int :=
  match e with
  | '+' :: ds => (digitsNat ds).map (fun n => (n : Int))
  | '-' :: ds => (digitsNat ds).map (fun n => -(n : Int))
  | ds => (digitsNat ds).map (fun n => (n : Int))

/-- A JavaScript number as produced by the Number coercion: NaN, a signed
infinity, or a finite value carried exactly as a rational. -/
inductive JNum where
  | nan
  | inf (neg : Bool)
  | val (q : ℚ)
deriving DecidableEq, Repr

/-- The part of the Number grammar after an optional sign: the literal
Infinity, or a decimal mantissa with an optional exponent. -/
def signedDecTail (r : Str) (neg : Bool) : JNum :=
  if r = "Infinity".toList then .inf neg
  else
    match splitOnExp r with
    | (mpart, none) =>
      match decMantissa mpart with
      | some q => .val (if neg then -q else q)
      | none => .nan
    | (mpart, some e) =>
      match decMantissa mpart, expVal e with
      | some q, some ex => .val (if neg then -(q * (10 : ℚ) ^ ex) else q * (10 : ℚ) ^ ex)
      | _, _ => .nan

/-- The JavaScript `Number(s)` coercion: strip JavaScript whitespace; the
empty remainder is 0; an unsigned 0x, 0o or 0b literal is its integer
value; otherwise an optionally signed decimal literal (Infinity, or a
mantissa with optional exponent); every string outside this grammar is
NaN.  The model carries the exact mathematical value of the literal; real
JavaScript additionally rounds it to the nearest binary64 double, a step
outside this model that is the identity on every value the theorems below
evaluate. -/
def jsNumber (s : Str) : JNum :=
  let t := trimJs s
  if t = [] then .val 0
  else
    match t with
    | '0' :: 'x' :: ds =>
      match baseDigitsVal 16 ds with
      | some n => .val (n : ℚ)
      | none => .nan
    | '0' :: 'X' :: ds =>
      match baseDigitsVal 16 ds with
      | some n => .val (n : ℚ)
      | none => .nan
    | '0' :: 'o' :: ds =>
      match baseDigitsVal 8 ds with
      | some n => .val (n : ℚ)
      | none => .nan
    | '0' :: 'O' :: ds =>
      match baseDigitsVal 8 ds with
      | some n => .val (n : ℚ)
      | none => .nan
    | '0' :: 'b' :: ds =>
      match baseDigitsVal 2 ds with
      | some n => .val (n : ℚ)
      | none => .nan
    | '0' :: 'B' :: ds =>
      match baseDigitsVal 2 ds with
      | some n => .val (n : ℚ)
      | none => .nan
    | '+' :: r => signedDecTail r false
    | '-' :: r => signedDecTail r true
    | r => signedDecTail r false

/-- JavaScript multiplication of a number by a positive literal constant
(60 or 3600): NaN stays NaN, an infinity keeps its sign. -/
def JNum.scaleBy (a : JNum) (c : ℚ) : JNum :=
  match a with
  | .nan => .nan
  | .inf s => .inf s
  | .val q => .val (q * c)

/-- JavaScript addition: NaN is absorbing, opposite infinities give NaN,
an infinity absorbs a finite value. -/
def JNum.add : JNum → JNum → JNum
  | .nan, _ => .nan
  | _, .nan => .nan
  | .inf s, .inf t => if s = t then .inf s else .nan
  | .inf s, .val _ => .inf s
  | .val _, .inf t => .inf t
  | .val a, .val b => .val (a + b)

/-- Repackage a numeric result as a duration value. -/
def jdurOf : JNum → JDur
  | .nan => .nan
  | .inf s => .inf s
  | .val q => .secs q

/-- `parts[0]*60 + parts[1]`. -/
def durOf2 (a b : JNum) : JDur :=
  jdurOf (JNum.add (a.scaleBy 60) b)

/-- `parts[0]*3600 + parts[1]*60 + parts[2]`, associated to the left as in
the source. -/
def durOf3 (a b c : JNum) : JDur :=
  jdurOf (JNum.add (JNum.add (a.scaleBy 3600) (b.scaleBy 60)) c)

/-- `parseDuration` of src/server.js lines 69 to 79.  The argument is the
metadata duration field: `none` for an absent field; the empty string is
falsy in JavaScript, so both yield null. -/
def parseDuration (duration : Option Str) : JDur :=
  match duration with
  | none => .null
  | some s =>
    if s = [] then .null
    else
      match (splitColon s).map jsNumber with
      | [a, b] => durOf2 a b
      | [a, b, c] => durOf3 a b c
      | _ => .null

/-- A per-episode entry of the metadata document; every field is optional
(`none` models an absent YAML key, i.e. JavaScript undefined). -/
structure EpisodeMeta where
  title : Option Str
  description : Option Str
  author : Option Str
  duration : Option Str
  explicit : Option Bool
  categories : Option (List Str)
  keywords : Option (List Str)
  image : Option Str
deriving DecidableEq, Repr

/-- The metadata entry with every field absent, the `{}` fallback of
src/server.js line 89. -/
def emptyMeta : EpisodeMeta :=
  ⟨none, none, none, none, none, none, none, none⟩

/-- JavaScript `x || dflt` for an optional string value: undefined and the
empty string are falsy and select the default. -/
def jsOrStr (x : Option Str) (dflt : Str) : Str :=
  match x with
  | some s => if s = [] then dflt else s
  | none => dflt

/-- A resolved episode record, the return value of `getEpisodeDetails`. -/
structure Episode where
  filename : Str
  releaseDate : Option JDate
  title : Str
  description : Str
  author : Option Str
  duration : JDur
  explicit : Option Bool
  categories : List Str
  keywords : List Str
  image : Option Str
deriving DecidableEq, Repr

/-- `getEpisodeDetails` of src/server.js lines 82 to 103, over a present
episode mapping (an association list keyed by filename, first match wins,
mirroring object-key lookup). -/
def getEpisodeDetails (filename : Str) (episodes : List (Str × EpisodeMeta)) : Episode :=
  let m := (episodes.lookup filename).getD emptyMeta
  { filename := filename
    releaseDate := (dateMatch filename).map parseISODate
    title := jsOrStr m.title (jsDefaultTitle filename)
    description := jsOrStr m.description ("Episode: ".toList ++ jsDefaultTitle filename)
    author := m.author
    duration := parseDuration m.duration
    explicit := m.explicit
    categories := m.categories.getD []
    keywords := m.keywords.getD []
    image := m.image }

/-- `getEpisodeDetails` applied to a whole metadata document whose
`episodes` key may be absent: the source reads `metadata.episodes[filename]`
and a subscript on undefined throws a TypeError, modelled by `.error`. -/
def getEpisodeDetailsDoc (filename : Str)
    (episodesField : Option (List (Str × EpisodeMeta))) : Except Unit Episode :=
  match episodesField with
  | none => .error ()
  | some m => .ok (getEpisodeDetails filename m)

/-- The local-midnight truncation performed by `setHours(0,0,0,0)` in
`shouldReleaseEpisode`: convert to local wall-clock milliseconds, floor to
the start of the day, convert back.  `tz` is the getTimezoneOffset value in
minutes. -/
def truncLocalMidnight (tz now : Int) : Int :=
  let l := now - tz * 60000
  l - Int.emod l 86400000 + tz * 60000

/-- `shouldReleaseEpisode` of src/server.js lines 165 to 170.  The source
reads the clock internally; here the current time and the timezone offset
are explicit parameters.  A null release date is falsy and passes; a Date
object (valid or invalid) is truthy and is compared against the truncated
current time. -/
def shouldReleaseEpisode (releaseDate : Option JDate) (now tz : Int) : Bool :=
  match releaseDate with
  | none => true
  | some d => JDate.le d (.valid (truncLocalMidnight tz now))

/-- The sort key `e.releaseDate || 0`: null is falsy and becomes 0, a Date
object is truthy and contributes its numeric value, NaN (`none`) for an
Invalid Date. -/
def releaseKey (e : Episode) : Option Int :=
  match e.releaseDate with
  | none => some 0
  | some (.valid ms) => some ms
  | some .invalid => none

/-- The stable sort with comparator `(a, b) => (b.releaseDate || 0) -
(a.releaseDate || 0)`: keep `a` before `b` when the comparator value is not
positive; a NaN comparator value counts as zero. -/
def jsSortLe (a b : Episode) : Bool :=
  match releaseKey a, releaseKey b with
  | some x, some y => y ≤ x
  | _, _ => true

/-- `.sort(...)` with the release-date comparator.  JavaScript array sort
is stable; a stable insertion sort produces the same list for every total
preorder comparator, and the comparator above is consistent on all lists
the theorems below consider. -/
def sortByReleaseDesc (l : List Episode) : List Episode :=
  List.insertionSort (fun a b => jsSortLe a b = true) l

/-- The file filter of the feed route (src/server.js lines 238 to 241):
keep filenames whose lowercased last dot-component is a supported
extension. -/
def feedFileFilter (files : List Str) : List Str :=
  files.filter (fun f => isSupportedExt (extOf (toLowerStr f)))

/-- The released, sorted episode collection rendered by /feed.xml
(src/server.js lines 237 to 269): filter by supported extension, resolve,
sort descending by release date, then keep exactly the episodes passing
the release gate (the loop adds an item only under that test). -/
def feedPipeline (files : List Str) (eps : List (Str × EpisodeMeta))
    (now tz : Int) : List Episode :=
  (sortByReleaseDesc ((feedFileFilter files).map (fun f => getEpisodeDetails f eps))).filter
    (fun e => shouldReleaseEpisode e.releaseDate now tz)

/-- An HTTP response, reduced to status code and body text. -/
structure HttpResp where
  status : Nat
  body : Str
deriving DecidableEq, Repr

/-- The /episodes handler (src/server.js lines 280 to 298).  Line 8 binds
`fs` to the callback-style filesystem module (the promise API is bound
separately as `fsPromises`), and line 283 awaits `fs.readdir(AUDIO_DIR)`
with no callback, a call that throws a TypeError before any filtering or
resolution happens.  Control therefore always reaches the catch of line
294 and the route answers 500; the filter, map and sort of lines 285 to
288 are dead code, and no episode collection is ever produced by this
route. -/
def episodesRoute (_files : List Str) (_eps : List (Str × EpisodeMeta)) : HttpResp :=
  ⟨500, "Server error".toList⟩

/-- The /audio route handler (src/server.js lines 173 to 213) for a request
naming `filename`: 404 when the file does not exist, then 400 for an
unsupported extension, then 404 when the release gate fails, else the audio
stream (body abstracted as a marker). -/
def audioResponse (fileOnDisk : Bool) (filename : Str)
    (eps : List (Str × EpisodeMeta)) (now tz : Int) : HttpResp :=
  if !fileOnDisk then ⟨404, "File not found".toList⟩
  else if !(isSupportedExt (extOf (toLowerStr filename))) then
    ⟨400, "Unsupported file format".toList⟩
  else if !(shouldReleaseEpisode (getEpisodeDetails filename eps).releaseDate now tz) then
    ⟨404, "Episode not yet available".toList⟩
  else ⟨200, "<audio stream>".toList⟩

-- sanity examples over the embedded definitions
example : jsNumber ("1.5".toList) ≠ JNum.nan := by decide
example : jsNumber ("-0x10".toList) = JNum.nan := by decide
example : jsNumber ("Infinity".toList) = JNum.inf false := by decide
example : jsNumber ("".toList) = JNum.val 0 := by decide
example : jsNumber ("1e2".toList) ≠ JNum.nan := by decide
example : jsNumber ("x".toList) = JNum.nan := by decide
example : parseDuration (some ("1.5:30".toList)) ≠ JDur.nan := by decide
example : parseDuration (some ("1.5:30".toList)) ≠ JDur.null := by decide
example : daysFromCivil 1970 1 1 = 0 := by decide
example : daysFromCivil 1970 1 2 = 1 := by decide
example : daysFromCivil 2024 12 1 = 20058 := by decide
example : parseISODate ("2024-13-40".toList) = .invalid := by decide
example : jsDefaultTitle ("2024-12-01_First_Day_Of_Christmas.mp3".toList)
    = "First Day Of Christmas".toList := by decide
example : jsDefaultTitle ("2024-12-01_Song.ogg".toList) = "Song.ogg".toList := by decide
example : parseDuration (some ("5:30".toList)) ≠ .null := by decide
example : parseDuration (some ("a:b".toList)) = .nan := by decide
example : parseDuration (some ("1:2:3:4".toList)) = .null := by decide
example : extOf (toLowerStr ("2024-12-01_A.MP3".toList)) = "mp3".toList := by decide

-- shared helper lemmas

/-- Flooring to the start of the local day is monotone in the time value. -/
theorem truncLocalMidnight_mono {tz a b : Int} (h : a ≤ b) :
    truncLocalMidnight tz a ≤ truncLocalMidnight tz b := by
  have e1 : ∀ x : Int, truncLocalMidnight tz x
      = (x - tz * 60000) - (x - tz * 60000) % 86400000 + tz * 60000 :=
    fun x => rfl
  rw [e1, e1]
  omega

/-- Membership is preserved by the modelled sort. -/
theorem mem_sortByReleaseDesc {e : Episode} {l : List Episode} :
    e ∈ sortByReleaseDesc l ↔ e ∈ l := by
  unfold sortByReleaseDesc
  exact (List.perm_insertionSort _ l).mem_iff

/-- C2: the release gate accepts a null release date for every current
time; for a valid release date it accepts exactly when the date is at most
the current time truncated to local midnight; and a filename without a
date token resolves to a null release date, hence is released regardless
of the current time. -/
theorem gate_spec (fn : Str) (eps : List (Str × EpisodeMeta)) (d now tz : Int) :
    shouldReleaseEpisode none now tz = true
    ∧ (shouldReleaseEpisode (some (JDate.valid d)) now tz = true
        ↔ d ≤ truncLocalMidnight tz now)
    ∧ (dateMatch fn = none →
        shouldReleaseEpisode (getEpisodeDetails fn eps).releaseDate now tz = true) := by
  refine ⟨rfl, ?_, ?_⟩
  · simp [shouldReleaseEpisode, JDate.le]
  · intro h
    simp [getEpisodeDetails, h, shouldReleaseEpisode]

/-- Witness for gate_spec: a dateless filename evaluated at a concrete
time. -/
theorem gate_spec_witness :
    dateMatch ("bonus_track.mp3".toList) = none
    ∧ shouldReleaseEpisode
        (getEpisodeDetails ("bonus_track.mp3".toList) []).releaseDate 5 0 = true :=
  ⟨by decide, (gate_spec ("bonus_track.mp3".toList) [] 0 5 0).2.2 (by decide)⟩

/-- C8: the release gate is monotonic in the current time: once released,
an episode stays released at every later time, for every release date
(null, valid or invalid). -/
theorem gate_monotone (rd : Option JDate) (n n2 tz : Int)
    (h : shouldReleaseEpisode rd n tz = true) (hlt : n < n2) :
    shouldReleaseEpisode rd n2 tz = true := by
  cases rd with
  | none => rfl
  | some d =>
    cases d with
    | invalid => simp [shouldReleaseEpisode, JDate.le] at h
    | valid ms =>
      simp only [shouldReleaseEpisode, JDate.le, decide_eq_true_eq] at h ⊢
      exact le_trans h (truncLocalMidnight_mono (le_of_lt hlt))

/-- Witness for gate_monotone at a concrete date and pair of times. -/
theorem gate_monotone_witness :
    shouldReleaseEpisode (some (JDate.valid 0)) 0 0 = true
    ∧ shouldReleaseEpisode (some (JDate.valid 0)) 86400000 0 = true :=
  ⟨by decide, gate_monotone (some (JDate.valid 0)) 0 86400000 0 (by decide) (by decide)⟩

/-- C5 counterexample: a two-segment duration with non-numeric parts
resolves to NaN, not to null. -/
theorem duration_nonnumeric_nan :
    parseDuration (some ("a:b".toList)) = JDur.nan ∧ JDur.nan ≠ JDur.null := by
  decide

/-- NaN is absorbing on the right of the JavaScript addition. -/
theorem jnum_add_nan (x : JNum) : JNum.add x JNum.nan = JNum.nan := by
  cases x <;> rfl

/-- NaN is absorbing on the left of the JavaScript addition. -/
theorem jnum_nan_add (x : JNum) : JNum.add JNum.nan x = JNum.nan := by
  cases x <;> rfl

/-- C5 amended: duration resolution is total and never raises; an absent
or empty duration and any wrong segment count resolve to null; two- and
three-segment durations whose parts are all numeric resolve to the total
seconds computed from their values; but a two- or three-segment duration
with any non-numeric part resolves to NaN rather than null. -/
theorem parseDuration_amended (s a b c : Str) (hh m ss : ℚ) :
    parseDuration none = JDur.null
    ∧ parseDuration (some []) = JDur.null
    ∧ (s ≠ [] → (splitColon s).length ≠ 2 → (splitColon s).length ≠ 3 →
        parseDuration (some s) = JDur.null)
    ∧ (splitColon s = [a, b] → jsNumber a = JNum.val m → jsNumber b = JNum.val ss →
        parseDuration (some s) = JDur.secs (m * 60 + ss))
    ∧ (splitColon s = [a, b, c] → jsNumber a = JNum.val hh → jsNumber b = JNum.val m →
        jsNumber c = JNum.val ss →
        parseDuration (some s) = JDur.secs (hh * 3600 + m * 60 + ss))
    ∧ (splitColon s = [a, b] → (jsNumber a = JNum.nan ∨ jsNumber b = JNum.nan) →
        parseDuration (some s) = JDur.nan)
    ∧ (splitColon s = [a, b, c] →
        (jsNumber a = JNum.nan ∨ jsNumber b = JNum.nan ∨ jsNumber c = JNum.nan) →
        parseDuration (some s) = JDur.nan) := by
  refine ⟨rfl, rfl, ?_, ?_, ?_, ?_, ?_⟩
  · intro hne h2 h3
    simp only [parseDuration, if_neg hne]
    split
    · rename_i heq
      have := congrArg List.length heq
      simp at this
      omega
    · rename_i heq
      have := congrArg List.length heq
      simp at this
      omega
    · rfl
  · intro hsp ha hb
    have hne : s ≠ [] := by
      intro h
      rw [h] at hsp
      simp [splitColon] at hsp
    simp only [parseDuration, if_neg hne, hsp, List.map_cons, List.map_nil, ha, hb,
      durOf2, JNum.scaleBy, JNum.add, jdurOf]
  · intro hsp ha hb hc
    have hne : s ≠ [] := by
      intro h
      rw [h] at hsp
      simp [splitColon] at hsp
    simp only [parseDuration, if_neg hne, hsp, List.map_cons, List.map_nil, ha, hb, hc,
      durOf3, JNum.scaleBy, JNum.add, jdurOf]
  · intro hsp hor
    have hne : s ≠ [] := by
      intro h
      rw [h] at hsp
      simp [splitColon] at hsp
    rcases hor with ha | hb
    · simp only [parseDuration, if_neg hne, hsp, List.map_cons, List.map_nil, ha,
        durOf2, JNum.scaleBy, jnum_nan_add, jdurOf]
    · simp only [parseDuration, if_neg hne, hsp, List.map_cons, List.map_nil, hb,
        durOf2, jnum_add_nan, jdurOf]
  · intro hsp hor
    have hne : s ≠ [] := by
      intro h
      rw [h] at hsp
      simp [splitColon] at hsp
    rcases hor with ha | hb | hc
    · simp only [parseDuration, if_neg hne, hsp, List.map_cons, List.map_nil, ha,
        durOf3, JNum.scaleBy, jnum_nan_add, jdurOf]
    · simp only [parseDuration, if_neg hne, hsp, List.map_cons, List.map_nil, hb,
        durOf3, JNum.scaleBy, jnum_add_nan, jnum_nan_add, jdurOf]
    · simp only [parseDuration, if_neg hne, hsp, List.map_cons, List.map_nil, hc,
        durOf3, jnum_add_nan, jdurOf]

/-- Witness for parseDuration_amended: the 5:30 scenario resolves to 330
seconds. -/
theorem parseDuration_amended_witness :
    parseDuration (some ("5:30".toList)) = JDur.secs 330 := by
  have h := (parseDuration_amended ("5:30".toList) ("5".toList) ("30".toList) [] 0 5 30).2.2.2.1
    (by decide) (by decide) (by decide)
  norm_num at h
  exact h

/-- C3 counterexample: a dated filename with the supported ogg extension
keeps its extension in the default title, because the source strips only a
trailing ".mp3". -/
theorem ogg_title_keeps_extension :
    isSupportedExt (extOf (toLowerStr ("2024-12-01_Song.ogg".toList))) = true
    ∧ (getEpisodeDetails ("2024-12-01_Song.ogg".toList) []).title = "Song.ogg".toList
    ∧ "Song.ogg".toList ≠ "Song".toList := by
  decide

/-- C3 amended: for a filename made of a date-shaped ten-character token,
an underscore and a remainder, the release date is the Date parse of that
token and the default title is the remainder with a trailing ".mp3" (and
only ".mp3") stripped and underscores replaced by spaces. -/
theorem filename_parse_amended (fn ds rest : Str) (eps : List (Str × EpisodeMeta))
    (hds : dateTokenPattern ds = true) (htake : fn.take 10 = ds)
    (hdrop : fn.drop 10 = '_' :: rest) :
    (getEpisodeDetails fn eps).releaseDate = some (parseISODate ds)
    ∧ jsDefaultTitle fn
      = underscoresToSpaces
          (if (".mp3".toList).isSuffixOf rest then rest.take (rest.length - 4) else rest) := by
  have hpat : hasDateToken fn = true := by
    rw [hasDateToken, htake]
    exact hds
  constructor
  · simp [getEpisodeDetails, dateMatch, hpat, htake]
  · rw [jsDefaultTitle, dropDateToken, if_pos hpat, hdrop]
    rfl

/-- Witness for filename_parse_amended at the Christmas Eve scenario
filename. -/
theorem filename_parse_amended_witness :
    (getEpisodeDetails ("2024-12-24_Christmas_Eve_Special.mp3".toList) []).releaseDate
      = some (parseISODate ("2024-12-24".toList))
    ∧ jsDefaultTitle ("2024-12-24_Christmas_Eve_Special.mp3".toList)
      = underscoresToSpaces
          (if (".mp3".toList).isSuffixOf ("Christmas_Eve_Special.mp3".toList)
           then ("Christmas_Eve_Special.mp3".toList).take
                  (("Christmas_Eve_Special.mp3".toList).length - 4)
           else "Christmas_Eve_Special.mp3".toList) :=
  filename_parse_amended ("2024-12-24_Christmas_Eve_Special.mp3".toList)
    ("2024-12-24".toList) ("Christmas_Eve_Special.mp3".toList) []
    (by decide) (by decide) (by decide)

/-- C4 counterexample: a metadata entry that sets the title field to the
empty string does not take precedence; the resolved title is the
filename-derived default, because the source tests truthiness rather than
presence. -/
theorem empty_title_override_ignored :
    (List.lookup ("2024-12-01_A.mp3".toList)
        [(("2024-12-01_A.mp3".toList), { emptyMeta with title := some [] })]).map
        EpisodeMeta.title
      = some (some [])
    ∧ (getEpisodeDetails ("2024-12-01_A.mp3".toList)
        [(("2024-12-01_A.mp3".toList), { emptyMeta with title := some [] })]).title
      = "A".toList
    ∧ "A".toList ≠ ([] : Str) := by
  decide

/-- C4 amended: with no metadata entry every field is the default; with an
entry, a title or description override wins exactly when it is a non-empty
string (the empty string is falsy and falls back to the default), author,
explicit and image are carried verbatim even when absent, duration is the
parse of the override, and categories and keywords default to the empty
list. -/
theorem metadata_field_resolution (fn : Str) (eps : List (Str × EpisodeMeta)) :
    (eps.lookup fn = none → getEpisodeDetails fn eps = getEpisodeDetails fn [])
    ∧ ∀ e, eps.lookup fn = some e →
      ((∀ t, e.title = some t → t ≠ [] → (getEpisodeDetails fn eps).title = t)
      ∧ ((e.title = none ∨ e.title = some []) →
          (getEpisodeDetails fn eps).title = jsDefaultTitle fn)
      ∧ (∀ t, e.description = some t → t ≠ [] → (getEpisodeDetails fn eps).description = t)
      ∧ ((e.description = none ∨ e.description = some []) →
          (getEpisodeDetails fn eps).description = "Episode: ".toList ++ jsDefaultTitle fn)
      ∧ (getEpisodeDetails fn eps).author = e.author
      ∧ (getEpisodeDetails fn eps).duration = parseDuration e.duration
      ∧ (getEpisodeDetails fn eps).explicit = e.explicit
      ∧ (getEpisodeDetails fn eps).categories = e.categories.getD []
      ∧ (getEpisodeDetails fn eps).keywords = e.keywords.getD []
      ∧ (getEpisodeDetails fn eps).image = e.image) := by
  constructor
  · intro h
    simp [getEpisodeDetails, h]
  · intro e hl
    refine ⟨?_, ?_, ?_, ?_, ?_, ?_, ?_, ?_, ?_, ?_⟩ <;>
      simp only [getEpisodeDetails, hl, Option.getD_some]
    · intro t ht hne
      simp [jsOrStr, ht, hne]
    · intro ht
      rcases ht with ht | ht <;> simp [jsOrStr, ht]
    · intro t ht hne
      simp [jsOrStr, ht, hne]
    · intro ht
      rcases ht with ht | ht <;> simp [jsOrStr, ht]

/-- Witness for metadata_field_resolution: the Christmas Eve scenario, a
description and duration override with the title left to default. -/
theorem metadata_field_resolution_witness :
    (getEpisodeDetails ("2024-12-24_Christmas_Eve_Special.mp3".toList)
        [(("2024-12-24_Christmas_Eve_Special.mp3".toList),
          { emptyMeta with description := some ("The grand finale!".toList),
                           duration := some ("5:30".toList) })]).description
      = "The grand finale!".toList
    ∧ (getEpisodeDetails ("2024-12-24_Christmas_Eve_Special.mp3".toList)
        [(("2024-12-24_Christmas_Eve_Special.mp3".toList),
          { emptyMeta with description := some ("The grand finale!".toList),
                           duration := some ("5:30".toList) })]).title
      = jsDefaultTitle ("2024-12-24_Christmas_Eve_Special.mp3".toList) :=
  ⟨(((metadata_field_resolution ("2024-12-24_Christmas_Eve_Special.mp3".toList)
        [(("2024-12-24_Christmas_Eve_Special.mp3".toList),
          { emptyMeta with description := some ("The grand finale!".toList),
                           duration := some ("5:30".toList) })]).2
        ({ emptyMeta with description := some ("The grand finale!".toList),
                          duration := some ("5:30".toList) })
        (by decide)).2.2.1 ("The grand finale!".toList) (by decide) (by decide)),
   (((metadata_field_resolution ("2024-12-24_Christmas_Eve_Special.mp3".toList)
        [(("2024-12-24_Christmas_Eve_Special.mp3".toList),
          { emptyMeta with description := some ("The grand finale!".toList),
                           duration := some ("5:30".toList) })]).2
        ({ emptyMeta with description := some ("The grand finale!".toList),
                          duration := some ("5:30".toList) })
        (by decide)).2.1 (Or.inl (by decide)))⟩

/-- C7 counterexample: for a dated mp3 file with a future release date, the
existing-but-embargoed response and the missing-file response share the
status code 404 but carry different bodies, so they are distinguishable. -/
theorem embargo_body_differs :
    (audioResponse true ("2999-01-01_X.mp3".toList) [] 0 0).status = 404
    ∧ (audioResponse false ("2999-01-01_X.mp3".toList) [] 0 0).status = 404
    ∧ (audioResponse true ("2999-01-01_X.mp3".toList) [] 0 0).body
      ≠ (audioResponse false ("2999-01-01_X.mp3".toList) [] 0 0).body := by
  decide

/-- C7 amended: for every file with a supported extension that fails the
release gate, the embargoed response and the missing-file response both
have status 404, but the bodies are the distinct texts Episode not yet
available and File not found. -/
theorem audio_embargo_amended (fn : Str) (eps : List (Str × EpisodeMeta)) (now tz : Int)
    (hext : isSupportedExt (extOf (toLowerStr fn)) = true)
    (hgate : shouldReleaseEpisode (getEpisodeDetails fn eps).releaseDate now tz = false) :
    audioResponse true fn eps now tz = ⟨404, "Episode not yet available".toList⟩
    ∧ audioResponse false fn eps now tz = ⟨404, "File not found".toList⟩
    ∧ "Episode not yet available".toList ≠ "File not found".toList := by
  refine ⟨?_, rfl, by decide⟩
  simp [audioResponse, hext, hgate]

/-- Witness for audio_embargo_amended at a concrete future-dated file. -/
theorem audio_embargo_amended_witness :
    audioResponse true ("2999-01-01_X.mp3".toList) [] 0 0
      = ⟨404, "Episode not yet available".toList⟩
    ∧ audioResponse false ("2999-01-01_X.mp3".toList) [] 0 0
      = ⟨404, "File not found".toList⟩
    ∧ "Episode not yet available".toList ≠ "File not found".toList :=
  audio_embargo_amended ("2999-01-01_X.mp3".toList) [] 0 0 (by decide) (by decide)

/-- C9: resolution over a present episode mapping is total (every filename
and mapping yields an episode record, absence of the entry giving the
defaults), but a metadata document whose episodes section is absent makes
the source throw: the subscript `metadata.episodes[filename]` on undefined
raises a TypeError, modelled as the error value. -/
theorem details_throws_when_mapping_absent :
    (∀ (fn : Str) (m : List (Str × EpisodeMeta)),
        getEpisodeDetailsDoc fn (some m) = Except.ok (getEpisodeDetails fn m))
    ∧ getEpisodeDetailsDoc ("a.mp3".toList) none = Except.error () :=
  ⟨fun _ _ => rfl, rfl⟩

/-- C10: a filename whose first ten characters are date-shaped but do not
denote a real calendar date resolves to an Invalid Date release date; the
release gate then rejects it at every current time, the /audio route never
answers 200 for it, and no feed collection contains it. -/
theorem invalid_date_never_released (files : List Str) (eps : List (Str × EpisodeMeta))
    (fn ds : Str) (now tz : Int)
    (hm : dateMatch fn = some ds) (hv : parseISODate ds = JDate.invalid) :
    (getEpisodeDetails fn eps).releaseDate = some JDate.invalid
    ∧ shouldReleaseEpisode (getEpisodeDetails fn eps).releaseDate now tz = false
    ∧ (∀ onDisk : Bool, (audioResponse onDisk fn eps now tz).status ≠ 200)
    ∧ ∀ e ∈ feedPipeline files eps now tz, e.filename ≠ fn := by
  have hrd : (getEpisodeDetails fn eps).releaseDate = some JDate.invalid := by
    simp [getEpisodeDetails, hm, hv]
  have hg : shouldReleaseEpisode (getEpisodeDetails fn eps).releaseDate now tz = false := by
    rw [hrd]
    rfl
  refine ⟨hrd, hg, ?_, ?_⟩
  · intro onDisk
    cases onDisk with
    | false => simp [audioResponse]
    | true =>
      by_cases hs : isSupportedExt (extOf (toLowerStr fn)) = true
      · simp [audioResponse, hs, hg]
      · simp [audioResponse, hs]
  · intro e he hfe
    have hmem := (List.mem_filter.mp he).1
    have hpred := (List.mem_filter.mp he).2
    have hmem2 : e ∈ (feedFileFilter files).map (fun f => getEpisodeDetails f eps) :=
      mem_sortByReleaseDesc.mp hmem
    obtain ⟨f, hf, hef⟩ := List.mem_map.mp hmem2
    have hfn : f = fn := by
      have h1 : (getEpisodeDetails f eps).filename = fn := by
        rw [hef]
        exact hfe
      simpa [getEpisodeDetails] using h1
    rw [← hef, hfn] at hpred
    rw [hpred] at hg
    simp at hg

/-- Witness for invalid_date_never_released at the date 2024-13-40. -/
theorem invalid_date_never_released_witness :
    dateMatch ("2024-13-40_X.mp3".toList) = some ("2024-13-40".toList)
    ∧ parseISODate ("2024-13-40".toList) = JDate.invalid
    ∧ shouldReleaseEpisode
        (getEpisodeDetails ("2024-13-40_X.mp3".toList) []).releaseDate 0 0 = false :=
  ⟨by decide, by decide,
   (invalid_date_never_released [] [] ("2024-13-40_X.mp3".toList) ("2024-13-40".toList) 0 0
      (by decide) (by decide)).2.1⟩

/-- C1: no response of either endpoint ever contains an episode whose
valid release date is strictly after the current time truncated to local
midnight: the feed collection keeps exactly the episodes passing the
release gate, and the /episodes handler throws on its directory read and
always answers 500, so its responses carry no episode collection at
all. -/
theorem no_unreleased_in_responses (files : List Str) (eps : List (Str × EpisodeMeta))
    (now tz d : Int) (e : Episode) (he : e ∈ feedPipeline files eps now tz)
    (hd : e.releaseDate = some (JDate.valid d)) :
    d ≤ truncLocalMidnight tz now
    ∧ episodesRoute files eps = ⟨500, "Server error".toList⟩ := by
  refine ⟨?_, rfl⟩
  have hpred := (List.mem_filter.mp he).2
  rw [hd] at hpred
  simpa [shouldReleaseEpisode, JDate.le] using hpred

/-- Witness for no_unreleased_in_responses: a released file present in a
concrete feed collection. -/
theorem no_unreleased_in_responses_witness :
    (getEpisodeDetails ("1970-01-02_A.mp3".toList) [])
        ∈ feedPipeline [("1970-01-02_A.mp3".toList)] [] 172800000 0
    ∧ 86400000 ≤ truncLocalMidnight 0 172800000 :=
  ⟨by decide,
   (no_unreleased_in_responses [("1970-01-02_A.mp3".toList)] [] 172800000 0 86400000
     (getEpisodeDetails ("1970-01-02_A.mp3".toList) []) (by decide) (by decide)).1⟩

/-- C6: the /episodes route cannot mirror the feed collection: its handler
always answers 500 and never returns a collection, while /feed.xml does
return the released episodes; evaluated over a one-file directory holding
a released mp3, the feed carries that episode and the /episodes response
is the server error. -/
theorem episodes_route_never_matches_feed :
    episodesRoute [("2020-01-01_A.mp3".toList)] [] = ⟨500, "Server error".toList⟩
    ∧ (feedPipeline [("2020-01-01_A.mp3".toList)] [] 1704067200000 0).map Episode.filename
      = [("2020-01-01_A.mp3".toList)] :=
  ⟨rfl, by decide⟩
